import Mathlib

/-!
Verification of the OpenLexicon spaced-repetition review scheduler.

The scheduler lives in two storage backends of the repository, a synchronous
localStorage module and an asynchronous localforage module; the scheduling
functions (`calculateNextInterval`, `calculateWordPriority`,
`autoGetNextWord`, `updateWordReview`) are embedded here from those sources.
JavaScript numbers are modelled as rationals (ℚ); timestamps are milliseconds
since the epoch; the stored word collection is modelled as the explicit list
of records that `getWords`/`setWords` read and write, and the current time
`Date.now()` is passed explicitly as `now`.
-/

namespace OpenLexicon

/-- The `WordRecord` interface of the word-bank modules: one vocabulary item
with its review history. -/
structure WordRecord where
  id : Nat
  word : String
  definition : String
  last_shown_timestamp : ℚ
  last_correct_timestamp : ℚ
  shown_times : Nat
  difficulty : ℚ
  «example» : String
deriving DecidableEq, Inhabited

namespace Wordbank

/-- `calculateNextInterval` of the localStorage backend: the expected delay in
milliseconds before the next review, from the SRS interval model. -/
def calculateNextInterval (difficulty : ℚ) (shownTimes : Nat) (wasCorrect : Bool) : ℚ :=
  let baseInterval : ℚ := 24 * 60 * 60 * 1000
  if !wasCorrect then
    baseInterval * (difficulty * (1/10) + 1/10)
  else
    let intervals : List ℚ := [1, 3, 7, 14, 30, 90, 180]
    let intervalIndex := min shownTimes (intervals.length - 1)
    let baseMultiplier := intervals.getD intervalIndex 0
    let difficultyMultiplier := max (1/2) (2 - difficulty * (3/10))
    baseInterval * baseMultiplier * difficultyMultiplier

/-- `calculateWordPriority` of the localStorage backend: the urgency score of
one record at time `now` (the source reads `now` from `Date.now()`). -/
def calculateWordPriority (now : ℚ) (word : WordRecord) : ℚ :=
  let timeSinceLastShown := now - word.last_shown_timestamp
  let timeSinceLastCorrect := now - word.last_correct_timestamp
  let wasLastCorrect : Bool := decide (word.last_correct_timestamp ≥ word.last_shown_timestamp)
  let expectedInterval := calculateNextInterval word.difficulty word.shown_times wasLastCorrect
  let overdueRatio := timeSinceLastShown / expectedInterval
  let priority := overdueRatio
  let priority :=
    if word.shown_times = 0 then priority + 100
    else if word.shown_times < 3 then priority + 10
    else priority
  let priority := priority + word.difficulty * (1/2)
  let priority :=
    if (!wasLastCorrect) ∧ timeSinceLastCorrect > timeSinceLastShown then priority + 5
    else priority
  let daysSinceLastShown := timeSinceLastShown / (24 * 60 * 60 * 1000)
  let priority := if daysSinceLastShown > 180 then priority + 2 else priority
  priority

/-- `autoGetNextWord` of the localStorage backend, with the stored collection
and the current time passed explicitly: on an empty collection it returns
`none`; otherwise it sorts by priority descending (the source's stable
`sort((a, b) => b.priority - a.priority)` over the records paired with their
priorities) and returns the first record. -/
def autoGetNextWord (now : ℚ) (words : List WordRecord) : Option WordRecord :=
  if words.length = 0 then
    none
  else
    (words.mergeSort
      (fun a b => decide (calculateWordPriority now b ≤ calculateWordPriority now a))).head?

/-- The record-level part of `updateWordReview`, applied to the record found
by `findIndex`: stamps `last_shown_timestamp`, increments `shown_times`, and
adjusts `difficulty` according to the outcome (including the source's
`recentCorrectRate` check, which compares the just-written
`last_correct_timestamp` with `now`). -/
def updateWordRecord (word : WordRecord) (wasCorrect : Bool) (now : ℚ) : WordRecord :=
  let word := { word with last_shown_timestamp := now, shown_times := word.shown_times + 1 }
  if wasCorrect then
    let word := { word with last_correct_timestamp := now }
    if word.shown_times > 3 ∧ word.difficulty > 1 then
      let recentCorrectRate : ℚ := if word.last_correct_timestamp = now then 1 else 0
      if recentCorrectRate > 8/10 then
        { word with difficulty := max 1 (word.difficulty - 1/10) }
      else word
    else word
  else
    { word with difficulty := min 5 (word.difficulty + 2/10) }

/-- `updateWordReview` of the localStorage backend over the stored collection.
The Boolean records which exit path the source takes: `false` is the early
`return` commented `Word not found` (nothing is written back), `true` is the
path that mutates the record at the `findIndex` position and calls `setWords`;
the list is the stored collection after the call. -/
def updateWordReview (wordStr : String) (wasCorrect : Bool) (now : ℚ)
    (words : List WordRecord) : Bool × List WordRecord :=
  match words.findIdx? (fun w => w.word == wordStr) with
  | none => (false, words)
  | some i => (true, words.set i (updateWordRecord (words.getD i default) wasCorrect now))

/-- A sequence of review-outcome updates applied to one record: each element
of the list is one reported `(wasCorrect, now)` pair, applied in order. -/
def applyUpdates (w : WordRecord) (updates : List (Bool × ℚ)) : WordRecord :=
  updates.foldl (fun acc u => updateWordRecord acc u.1 u.2) w

end Wordbank

namespace WordbankAsync

/-- `calculateNextInterval` of the localforage backend (the asynchronous
module carries its own copy of the interval model). -/
def calculateNextInterval (difficulty : ℚ) (shownTimes : Nat) (wasCorrect : Bool) : ℚ :=
  let baseInterval : ℚ := 24 * 60 * 60 * 1000
  if !wasCorrect then
    baseInterval * (difficulty * (1/10) + 1/10)
  else
    let intervals : List ℚ := [1, 3, 7, 14, 30, 90, 180]
    let intervalIndex := min shownTimes (intervals.length - 1)
    let baseMultiplier := intervals.getD intervalIndex 0
    let difficultyMultiplier := max (1/2) (2 - difficulty * (3/10))
    baseInterval * baseMultiplier * difficultyMultiplier

/-- `calculateWordPriority` of the localforage backend. -/
def calculateWordPriority (now : ℚ) (word : WordRecord) : ℚ :=
  let timeSinceLastShown := now - word.last_shown_timestamp
  let timeSinceLastCorrect := now - word.last_correct_timestamp
  let wasLastCorrect : Bool := decide (word.last_correct_timestamp ≥ word.last_shown_timestamp)
  let expectedInterval := calculateNextInterval word.difficulty word.shown_times wasLastCorrect
  let overdueRatio := timeSinceLastShown / expectedInterval
  let priority := overdueRatio
  let priority :=
    if word.shown_times = 0 then priority + 100
    else if word.shown_times < 3 then priority + 10
    else priority
  let priority := priority + word.difficulty * (1/2)
  let priority :=
    if (!wasLastCorrect) ∧ timeSinceLastCorrect > timeSinceLastShown then priority + 5
    else priority
  let daysSinceLastShown := timeSinceLastShown / (24 * 60 * 60 * 1000)
  let priority := if daysSinceLastShown > 180 then priority + 2 else priority
  priority

end WordbankAsync

namespace Wordbank

/-- Concrete record for the C3 counterexample: pre-update `shown_times = 3`,
`difficulty = 2`. -/
def preThreeWord : WordRecord := ⟨0, "w", "", 0, 0, 3, 2, ""⟩

/-- Concrete record of spec scenario E: pre-update `shown_times = 4`,
`difficulty = 2`. -/
def scenarioEWord : WordRecord := ⟨1, "e", "", 0, 0, 4, 2, ""⟩

/-- Concrete record of spec scenario D: `difficulty = 4.9`. -/
def scenarioDWord : WordRecord := ⟨2, "d", "", 0, 0, 1, 49/10, ""⟩

/-- A never-shown record (spec scenario A). -/
def newWord : WordRecord := ⟨0, "new", "", 0, 0, 0, 1, ""⟩

/-- A record shown once long ago whose last correct answer predates its last
showing: at `now` = 100 days it is vastly overdue. -/
def staleWord : WordRecord := ⟨1, "old", "", 1, 0, 1, 1, ""⟩

/-- A record shown once, only one day before `now`. -/
def recentWord : WordRecord := ⟨2, "r", "", 0, 0, 1, 1, ""⟩

/-- Concrete two-record collection for the update-review witnesses. -/
def wordA : WordRecord := ⟨0, "a", "da", 10, 5, 2, 3, "ea"⟩

/-- Second record of the concrete collection. -/
def wordB : WordRecord := ⟨1, "b", "db", 20, 6, 4, 2, "eb"⟩

/-- The interval model never returns less than `baseDay * 0.2` when
`difficulty ≥ 1`. -/
lemma le_calculateNextInterval (d : ℚ) (s : Nat) (c : Bool) (h1 : 1 ≤ d) :
    86400000 * (2/10) ≤ calculateNextInterval d s c := by
  cases c with
  | false =>
    simp only [calculateNextInterval, Bool.not_false, if_pos]
    nlinarith
  | true =>
    simp only [calculateNextInterval, Bool.not_true, Bool.false_eq_true, if_false]
    have hf : (1:ℚ)/2 ≤ max (1/2) (2 - d * (3/10)) := le_max_left _ _
    have hm : (1:ℚ) ≤ ([1, 3, 7, 14, 30, 90, 180] : List ℚ).getD (min s 6) 0 := by
      have h6 : min s 6 ≤ 6 := min_le_right _ _
      interval_cases h : min s 6 <;> norm_num [List.getD]
    set M := ([1, 3, 7, 14, 30, 90, 180] : List ℚ).getD (min s 6) 0 with hM
    set F := max ((1:ℚ)/2) (2 - d * (3/10)) with hF
    simp only [List.length_cons, List.length_nil]
    nlinarith

/-- The day-count test `timeSinceLastShown / baseDay > 180` of the source is
the millisecond test `timeSinceLastShown > 180 * baseDay`. -/
lemma day_threshold (t : ℚ) :
    (t / (24 * 60 * 60 * 1000) > 180) ↔ t > 180 * (24 * 60 * 60 * 1000) := by
  rw [gt_iff_lt, lt_div_iff₀ (by norm_num : (0:ℚ) < 24 * 60 * 60 * 1000)]

/-- Closed form of `calculateWordPriority`: the sequential accumulation of the
source equals the additive sum of its five terms. -/
lemma calculateWordPriority_eq (now : ℚ) (w : WordRecord) :
    calculateWordPriority now w =
      (now - w.last_shown_timestamp) /
          calculateNextInterval w.difficulty w.shown_times
            (decide (w.last_correct_timestamp ≥ w.last_shown_timestamp)) +
        (if w.shown_times = 0 then 100 else if w.shown_times < 3 then 10 else 0) +
        w.difficulty * (1/2) +
        (if ¬ w.last_correct_timestamp ≥ w.last_shown_timestamp ∧
            now - w.last_correct_timestamp > now - w.last_shown_timestamp then 5 else 0) +
        (if now - w.last_shown_timestamp > 180 * (24 * 60 * 60 * 1000) then 2 else 0) := by
  unfold calculateWordPriority
  simp only [← day_threshold]
  by_cases h1 : w.last_correct_timestamp ≥ w.last_shown_timestamp <;>
    by_cases h2 : w.shown_times = 0 <;>
    by_cases h3 : w.shown_times < 3 <;>
    by_cases h4 : now - w.last_correct_timestamp > now - w.last_shown_timestamp <;>
    by_cases h5 : (now - w.last_shown_timestamp) / (24 * 60 * 60 * 1000) > 180 <;>
    simp [h1, h2, h3, h4, h5]

/-- `autoGetNextWord` on a non-empty collection returns a member whose
priority is maximal (from stability-independent facts about `mergeSort`:
sortedness and permutation). -/
lemma autoGetNextWord_spec (now : ℚ) (words : List WordRecord) (h : words ≠ []) :
    ∃ w, autoGetNextWord now words = some w ∧ w ∈ words ∧
      ∀ x ∈ words, calculateWordPriority now x ≤ calculateWordPriority now w := by
  unfold autoGetNextWord
  rw [if_neg (by simpa using h)]
  set le := fun a b : WordRecord =>
    decide (calculateWordPriority now b ≤ calculateWordPriority now a) with hle
  have hperm : List.Perm (words.mergeSort le) words := List.mergeSort_perm words le
  have hsorted : (words.mergeSort le).Pairwise (le · ·) := by
    apply List.sorted_mergeSort
    · intro a b c hab hbc
      simp only [hle, decide_eq_true_eq] at *
      exact le_trans hbc hab
    · intro a b
      simp only [hle, Bool.or_eq_true, decide_eq_true_eq]
      exact le_total _ _
  cases hm : words.mergeSort le with
  | nil =>
    exfalso
    rw [hm] at hperm
    exact h (List.perm_nil.mp hperm.symm)
  | cons w t =>
    refine ⟨w, by simp [hm], ?_, ?_⟩
    · have : w ∈ words.mergeSort le := by simp [hm]
      exact hperm.mem_iff.mp this
    · intro x hx
      have hx' : x ∈ words.mergeSort le := hperm.mem_iff.mpr hx
      rw [hm] at hx' hsorted
      rcases List.mem_cons.mp hx' with rfl | hxt
      · exact le_refl _
      · have := (List.pairwise_cons.mp hsorted).1 x hxt
        simpa [hle] using this

/-- The scheduler fields after a correct-outcome record update: the
`recentCorrectRate` test of the source is always true on this path, so the
difficulty drop is governed by the post-increment count alone. -/
lemma updateWordRecord_correct_fields (w : WordRecord) (now : ℚ) :
    (updateWordRecord w true now).shown_times = w.shown_times + 1 ∧
    (updateWordRecord w true now).last_shown_timestamp = now ∧
    (updateWordRecord w true now).last_correct_timestamp = now ∧
    (updateWordRecord w true now).difficulty =
      (if w.shown_times + 1 > 3 ∧ w.difficulty > 1 then max 1 (w.difficulty - 1/10)
       else w.difficulty) := by
  by_cases hc : w.shown_times + 1 > 3 ∧ w.difficulty > 1 <;>
    simp [updateWordRecord, hc] <;> norm_num

/-- All fields after an incorrect-outcome record update. -/
lemma updateWordRecord_false_fields (w : WordRecord) (now : ℚ) :
    (updateWordRecord w false now).shown_times = w.shown_times + 1 ∧
    (updateWordRecord w false now).last_shown_timestamp = now ∧
    (updateWordRecord w false now).last_correct_timestamp = w.last_correct_timestamp ∧
    (updateWordRecord w false now).difficulty = min 5 (w.difficulty + 2/10) ∧
    (updateWordRecord w false now).id = w.id ∧
    (updateWordRecord w false now).word = w.word ∧
    (updateWordRecord w false now).definition = w.definition ∧
    (updateWordRecord w false now).«example» = w.«example» := by
  simp [updateWordRecord]

/-- One review-outcome update keeps `difficulty` inside `[1, 5]`. -/
lemma difficulty_step (w : WordRecord) (b : Bool) (now : ℚ)
    (h1 : 1 ≤ w.difficulty) (h5 : w.difficulty ≤ 5) :
    1 ≤ (updateWordRecord w b now).difficulty ∧ (updateWordRecord w b now).difficulty ≤ 5 := by
  cases b with
  | false =>
    simp only [updateWordRecord, Bool.false_eq_true, if_false]
    constructor
    · simp only [le_min_iff]
      constructor <;> linarith
    · exact min_le_left _ _
  | true =>
    have hd := (updateWordRecord_correct_fields w now).2.2.2
    rw [hd]
    by_cases hc : w.shown_times + 1 > 3 ∧ w.difficulty > 1
    · rw [if_pos hc]
      refine ⟨le_max_left _ _, ?_⟩
      rw [max_le_iff]
      constructor <;> linarith
    · rw [if_neg hc]
      exact ⟨h1, h5⟩

/-- Any sequence of review-outcome updates keeps `difficulty` inside `[1, 5]`. -/
lemma applyUpdates_clamp (w : WordRecord) (updates : List (Bool × ℚ))
    (h1 : 1 ≤ w.difficulty) (h5 : w.difficulty ≤ 5) :
    1 ≤ (applyUpdates w updates).difficulty ∧ (applyUpdates w updates).difficulty ≤ 5 := by
  induction updates generalizing w with
  | nil => exact ⟨h1, h5⟩
  | cons u us ih =>
    have hstep := difficulty_step w u.1 u.2 h1 h5
    exact ih _ hstep.1 hstep.2

/-- A record already shown, at most sixteen days overdue, scores at most
97.5: its overdue ratio is at most `16 day / (0.2 day) = 80` and the bonuses
add at most `10 + 2.5 + 5`. -/
lemma priority_le_shown (now : ℚ) (w : WordRecord)
    (hd1 : 1 ≤ w.difficulty) (hd5 : w.difficulty ≤ 5)
    (hls : w.last_shown_timestamp ≤ now) (hs : w.shown_times ≠ 0)
    (hb : now - w.last_shown_timestamp ≤ 16 * 86400000) :
    calculateWordPriority now w ≤ 195/2 := by
  rw [calculateWordPriority_eq]
  set E := calculateNextInterval w.difficulty w.shown_times
    (decide (w.last_correct_timestamp ≥ w.last_shown_timestamp)) with hE
  have hE2 : 86400000 * (2/10) ≤ E := le_calculateNextInterval _ _ _ hd1
  have hE0 : (0:ℚ) < E := lt_of_lt_of_le (by norm_num) hE2
  have hratio : (now - w.last_shown_timestamp) / E ≤ 80 := by
    rw [div_le_iff₀ hE0]
    linarith
  have hbonus : (if w.shown_times = 0 then (100:ℚ)
      else if w.shown_times < 3 then 10 else 0) ≤ 10 := by
    rw [if_neg hs]
    split <;> norm_num
  have h5t : (if ¬ w.last_correct_timestamp ≥ w.last_shown_timestamp ∧
      now - w.last_correct_timestamp > now - w.last_shown_timestamp then (5:ℚ) else 0) ≤ 5 := by
    split <;> norm_num
  have h2t : (if now - w.last_shown_timestamp > 180 * (24 * 60 * 60 * 1000) then (2:ℚ) else 0)
      = 0 := by
    rw [if_neg]
    push_neg
    linarith
  rw [h2t]
  linarith

/-- A never-shown record scores at least 100.5: the `+100` bonus plus at
least half a point of difficulty, with every other term non-negative. -/
lemma priority_ge_new (now : ℚ) (w : WordRecord)
    (hd1 : 1 ≤ w.difficulty) (hd5 : w.difficulty ≤ 5)
    (hls : w.last_shown_timestamp ≤ now) (hs : w.shown_times = 0) :
    201/2 ≤ calculateWordPriority now w := by
  rw [calculateWordPriority_eq]
  set E := calculateNextInterval w.difficulty w.shown_times
    (decide (w.last_correct_timestamp ≥ w.last_shown_timestamp)) with hE
  have hE2 : 86400000 * (2/10) ≤ E := le_calculateNextInterval _ _ _ hd1
  have hratio : (0:ℚ) ≤ (now - w.last_shown_timestamp) / E :=
    div_nonneg (by linarith) (by linarith)
  have hbonus : (if w.shown_times = 0 then (100:ℚ)
      else if w.shown_times < 3 then 10 else 0) = 100 := if_pos hs
  rw [hbonus]
  split_ifs <;> linarith

end Wordbank

namespace Wordbank

/-- C1: for every word entry and current time `now`, the priority score equals
`overdueRatio + (100 if shownTimes = 0, else 10 if shownTimes < 3, else 0)
+ difficulty * 0.5 + (5 if wasLastCorrect is false and now - lastCorrectAt >
now - lastShownAt, else 0) + (2 if now - lastShownAt exceeds 180 days, else
0)`, with `wasLastCorrect = (lastCorrectAt ≥ lastShownAt)` and `overdueRatio
= (now - lastShownAt) / IntervalModel(difficulty, shownTimes,
wasLastCorrect)`. -/
theorem priority_score_formula (now : ℚ) (w : WordRecord) :
    calculateWordPriority now w =
      (now - w.last_shown_timestamp) /
          calculateNextInterval w.difficulty w.shown_times
            (decide (w.last_correct_timestamp ≥ w.last_shown_timestamp)) +
        (if w.shown_times = 0 then 100 else if w.shown_times < 3 then 10 else 0) +
        w.difficulty * (1/2) +
        (if ¬ w.last_correct_timestamp ≥ w.last_shown_timestamp ∧
            now - w.last_correct_timestamp > now - w.last_shown_timestamp then 5 else 0) +
        (if now - w.last_shown_timestamp > 180 * (24 * 60 * 60 * 1000) then 2 else 0) :=
  calculateWordPriority_eq now w

/-- C2: for every difficulty and shownTimes, the interval model returns
`baseDay * (difficulty * 0.1 + 0.1)` when the previous answer was wrong, and
`[1, 3, 7, 14, 30, 90, 180][min(shownTimes, 6)] * baseDay * max(0.5, 2 -
difficulty * 0.3)` when it was right, with `baseDay = 86,400,000` ms; in
particular `(3, 5, true)` yields 8,553,600,000 ms and `(2, 2, false)` yields
25,920,000 ms. -/
theorem interval_model_formula (d : ℚ) (s : Nat) :
    calculateNextInterval d s false = 86400000 * (d * (1/10) + 1/10) ∧
    calculateNextInterval d s true =
      ([1, 3, 7, 14, 30, 90, 180] : List ℚ).getD (min s 6) 0 * 86400000 *
        max (1/2) (2 - d * (3/10)) ∧
    calculateNextInterval 3 5 true = 8553600000 ∧
    calculateNextInterval 2 2 false = 25920000 := by
  refine ⟨?_, ?_, by norm_num [calculateNextInterval], by norm_num [calculateNextInterval]⟩
  · simp only [calculateNextInterval, Bool.not_false, if_pos]
    ring
  · simp only [calculateNextInterval, Bool.not_true, Bool.false_eq_true, if_false,
      List.length_cons, List.length_nil]
    ring

/-- C3 (counterexample to the claim as stated): at pre-update
`shown_times = 3` and `difficulty = 2` — where the claim's condition
"pre-update shownTimes > 3" is false, so the claim demands an unchanged
difficulty — a correct-outcome update nevertheless changes the difficulty to
1.9, because the source checks the post-increment count `4 > 3`. -/
theorem correct_update_pre3_counterexample :
    preThreeWord.shown_times = 3 ∧ ¬ preThreeWord.shown_times > 3 ∧
    preThreeWord.difficulty > 1 ∧
    (updateWordRecord preThreeWord true 1000).difficulty = 19/10 ∧
    (updateWordRecord preThreeWord true 1000).difficulty ≠ preThreeWord.difficulty := by
  norm_num [updateWordRecord, preThreeWord]

/-- C3 (amended): a correct-outcome update increments `shown_times` by exactly
one, stamps `last_shown_timestamp` and `last_correct_timestamp` with `now`,
and decreases `difficulty` by 0.1 (clamped to a floor of 1.0) exactly when the
post-increment shownTimes exceeds 3 — that is, pre-update `shownTimes ≥ 3` —
and the pre-update difficulty exceeds 1.0, leaving difficulty unchanged
otherwise; in particular pre-update `shownTimes = 4`, `difficulty = 2.0`
yields post-update `shownTimes = 5`, `difficulty = 1.9`. -/
theorem correct_update_amended (w : WordRecord) (now : ℚ) :
    ((updateWordRecord w true now).shown_times = w.shown_times + 1 ∧
     (updateWordRecord w true now).last_shown_timestamp = now ∧
     (updateWordRecord w true now).last_correct_timestamp = now ∧
     (updateWordRecord w true now).difficulty =
       (if w.shown_times + 1 > 3 ∧ w.difficulty > 1 then max 1 (w.difficulty - 1/10)
        else w.difficulty)) ∧
    (updateWordRecord scenarioEWord true 500).shown_times = 5 ∧
    (updateWordRecord scenarioEWord true 500).difficulty = 19/10 ∧
    (updateWordRecord scenarioEWord true 500).last_shown_timestamp = 500 ∧
    (updateWordRecord scenarioEWord true 500).last_correct_timestamp = 500 := by
  refine ⟨updateWordRecord_correct_fields w now, ?_, ?_, ?_, ?_⟩ <;>
    norm_num [updateWordRecord, scenarioEWord]

/-- C4: for every entry whose difficulty lies in `[1, 5]` and every sequence
of review-outcome updates, the difficulty stays in `[1, 5]`; in particular an
incorrect-outcome update from difficulty 4.9 yields exactly 5.0. -/
theorem difficulty_clamp_invariant (w : WordRecord) (updates : List (Bool × ℚ))
    (h1 : 1 ≤ w.difficulty) (h5 : w.difficulty ≤ 5) :
    (1 ≤ (applyUpdates w updates).difficulty ∧ (applyUpdates w updates).difficulty ≤ 5) ∧
    (updateWordRecord scenarioDWord false 0).difficulty = 5 :=
  ⟨applyUpdates_clamp w updates h1 h5, by norm_num [updateWordRecord, scenarioDWord]⟩

/-- Witness for C4 at an explicit input: one incorrect update from
difficulty 4.9. -/
theorem difficulty_clamp_invariant_witness :
    (1 ≤ (applyUpdates scenarioDWord [(false, 0)]).difficulty ∧
     (applyUpdates scenarioDWord [(false, 0)]).difficulty ≤ 5) ∧
    (updateWordRecord scenarioDWord false 0).difficulty = 5 :=
  difficulty_clamp_invariant scenarioDWord [(false, 0)]
    (by norm_num [scenarioDWord]) (by norm_num [scenarioDWord])

/-- C5 (counterexample to the claim as stated): the collection
`[newWord, staleWord]` contains the never-shown `newWord` of spec scenario A,
yet at `now` = 100 days the selection returns `staleWord` — shown once,
answered incorrectly, 100 days overdue on a 0.2-day interval, so its overdue
ratio ≈ 500 beats the `+100` bonus. -/
theorem never_shown_dominance_counterexample :
    newWord ∈ [newWord, staleWord] ∧ newWord.shown_times = 0 ∧
    (autoGetNextWord 8640000000 [newWord, staleWord]).map WordRecord.shown_times = some 1 ∧
    (autoGetNextWord 8640000000 [newWord, staleWord]).map WordRecord.shown_times ≠ some 0 := by
  have hlt : calculateWordPriority 8640000000 newWord <
      calculateWordPriority 8640000000 staleWord := by
    norm_num [calculateWordPriority, calculateNextInterval, newWord, staleWord]
  obtain ⟨w, heq, hmem, hmax⟩ :=
    autoGetNextWord_spec 8640000000 [newWord, staleWord] (by simp)
  have hw : w = staleWord := by
    rcases List.mem_cons.mp hmem with h | h
    · exfalso
      have hle := hmax staleWord (by simp)
      rw [h] at hle
      linarith
    · simpa using h
  rw [heq, hw]
  refine ⟨by simp, by simp [newWord], by simp [staleWord], by simp [staleWord]⟩

/-- C5 (amended): for every collection containing a never-shown entry, if
every entry has difficulty in `[1, 5]` and was last shown no later than
`now`, and every already-shown entry is at most sixteen days overdue, then
the selection returns a never-shown entry (the `+100` bonus then dominates:
a shown entry scores at most 97.5 while a never-shown one scores at least
100.5). -/
theorem never_shown_dominance_amended (now : ℚ) (words : List WordRecord) (z : WordRecord)
    (hz : z ∈ words) (hz0 : z.shown_times = 0)
    (hd : ∀ w ∈ words, 1 ≤ w.difficulty ∧ w.difficulty ≤ 5)
    (ht : ∀ w ∈ words, w.last_shown_timestamp ≤ now)
    (hb : ∀ w ∈ words, w.shown_times ≠ 0 → now - w.last_shown_timestamp ≤ 16 * 86400000) :
    ∃ w, autoGetNextWord now words = some w ∧ w.shown_times = 0 := by
  obtain ⟨w, heq, hmem, hmax⟩ :=
    autoGetNextWord_spec now words (List.ne_nil_of_mem hz)
  refine ⟨w, heq, ?_⟩
  by_contra hw0
  have h1 : calculateWordPriority now w ≤ 195/2 :=
    priority_le_shown now w (hd w hmem).1 (hd w hmem).2 (ht w hmem) hw0 (hb w hmem hw0)
  have h2 : (201:ℚ)/2 ≤ calculateWordPriority now z :=
    priority_ge_new now z (hd z hz).1 (hd z hz).2 (ht z hz) hz0
  have h3 := hmax z hz
  linarith

/-- Witness for C5 (amended) at an explicit input: a never-shown record next
to a record shown once, one day before `now`. -/
theorem never_shown_dominance_amended_witness :
    ∃ w, autoGetNextWord 86400000 [newWord, recentWord] = some w ∧ w.shown_times = 0 :=
  never_shown_dominance_amended 86400000 [newWord, recentWord] newWord (by simp) rfl
    (by norm_num [newWord, recentWord]) (by norm_num [newWord, recentWord])
    (by norm_num [newWord, recentWord])

/-- C6: for every difficulty in `[1, 5]`, every shownTimes and every outcome,
the interval model returns at least `baseDay * 0.2` = 17,280,000 ms, hence a
strictly positive value, so the overdue-ratio division never divides by
zero under valid input. -/
theorem interval_lower_bound (d : ℚ) (s : Nat) (c : Bool) (h1 : 1 ≤ d) (h5 : d ≤ 5) :
    86400000 * (2/10) ≤ calculateNextInterval d s c ∧ 0 < calculateNextInterval d s c := by
  have h := le_calculateNextInterval d s c h1
  exact ⟨h, lt_of_lt_of_le (by norm_num) h⟩

/-- Witness for C6 at an explicit input. -/
theorem interval_lower_bound_witness :
    86400000 * (2/10) ≤ calculateNextInterval 3 0 true ∧
    0 < calculateNextInterval 3 0 true :=
  interval_lower_bound 3 0 true (by norm_num) (by norm_num)

/-- C7: updating the entry found at index `i` with an incorrect outcome sets
`difficulty' = min(5, difficulty + 0.2)`, leaves `last_correct_timestamp`
unchanged, sets `last_shown_timestamp = now`, increments `shown_times` by
one, leaves the entry's id, word, definition and example unchanged, and
leaves every other entry of the collection unchanged. -/
theorem incorrect_update_frame (words : List WordRecord) (s : String) (now : ℚ) (i : Nat)
    (w : WordRecord)
    (hfind : words.findIdx? (fun x => x.word == s) = some i)
    (hw : words[i]? = some w) :
    (updateWordReview s false now words).1 = true ∧
    (updateWordReview s false now words).2 = words.set i (updateWordRecord w false now) ∧
    (∀ j, j ≠ i → (updateWordReview s false now words).2[j]? = words[j]?) ∧
    (updateWordRecord w false now).difficulty = min 5 (w.difficulty + 2/10) ∧
    (updateWordRecord w false now).last_correct_timestamp = w.last_correct_timestamp ∧
    (updateWordRecord w false now).last_shown_timestamp = now ∧
    (updateWordRecord w false now).shown_times = w.shown_times + 1 ∧
    (updateWordRecord w false now).id = w.id ∧
    (updateWordRecord w false now).word = w.word ∧
    (updateWordRecord w false now).definition = w.definition ∧
    (updateWordRecord w false now).«example» = w.«example» := by
  have hgetD : words.getD i default = w := by
    rw [List.getD_eq_getElem?_getD, hw]
    rfl
  have hres : updateWordReview s false now words =
      (true, words.set i (updateWordRecord w false now)) := by
    simp only [updateWordReview, hfind, hgetD]
  refine ⟨by rw [hres], by rw [hres], ?_, ?_, ?_, ?_, ?_, ?_, ?_, ?_, ?_⟩
  · intro j hj
    rw [hres]
    exact List.getElem?_set_ne (fun hne => hj hne.symm)
  all_goals
    simp [updateWordRecord]

/-- Witness for C7 at an explicit input: incorrect outcome for the second of
two records. -/
theorem incorrect_update_frame_witness :
    (updateWordReview "b" false 7 [wordA, wordB]).1 = true :=
  (incorrect_update_frame [wordA, wordB] "b" 7 1 wordB
    (by simp [List.findIdx?_cons, wordA, wordB]) rfl).1

/-- C8: when no entry of the collection carries the requested word string,
`updateWordReview` takes the not-found exit (the flag `false`, the source's
early `return` before any write) and the stored collection is unchanged. -/
theorem update_not_found_no_mutation (words : List WordRecord) (s : String) (b : Bool)
    (now : ℚ) (h : ∀ w ∈ words, w.word ≠ s) :
    updateWordReview s b now words = (false, words) := by
  unfold updateWordReview
  have hnone : words.findIdx? (fun w => w.word == s) = none := by
    rw [List.findIdx?_eq_none_iff]
    intro x hx
    simpa using h x hx
  rw [hnone]

/-- Witness for C8 at an explicit input: a word string absent from a
one-record collection. -/
theorem update_not_found_no_mutation_witness :
    updateWordReview "zzz" true 1 [wordA] = (false, [wordA]) :=
  update_not_found_no_mutation [wordA] "zzz" true 1 (by simp [wordA])

/-- C9: on the empty collection the selection returns the explicit
"no entry available" result `none` (the source's `null`), not an error. -/
theorem empty_selection_none (now : ℚ) :
    autoGetNextWord now ([] : List WordRecord) = none := rfl

end Wordbank

/-- C10: the synchronous localStorage scheduler and the asynchronous
localforage scheduler compute identical values for `calculateNextInterval`
and, at any one time `now`, for `calculateWordPriority`: the two embedded
functions are extensionally equal. -/
theorem backends_agree :
    (∀ (d : ℚ) (s : Nat) (c : Bool),
      Wordbank.calculateNextInterval d s c = WordbankAsync.calculateNextInterval d s c) ∧
    (∀ (now : ℚ) (w : WordRecord),
      Wordbank.calculateWordPriority now w = WordbankAsync.calculateWordPriority now w) :=
  ⟨fun _ _ _ => rfl, fun _ _ => rfl⟩

end OpenLexicon
